import Mathlib

/-
  Verification development for the jns2025 web scraper
  (src/enhanced-scraper.js, src/web-scraper.js and the bundled
  data-processor / CLI files).

  The JavaScript sources are shallowly embedded below.  DOM access through
  cheerio is abstracted as functions supplying the text/attribute values a
  selector query would return; the pure record-building, normalization,
  retry, CSV and HTML formatting logic is translated line by line.
-/

set_option maxRecDepth 4000

namespace JNS2025

/- ===================== JS string primitives ===================== -/

/-- Whitespace class used by JS String.trim and the regex class backslash-s
    (space, tab, LF, CR, VT, FF, NBSP, BOM). -/
def isJsWs (c : Char) : Bool :=
  c = ' ' || c = '\t' || c = '\n' || c = '\r' ||
  c = Char.ofNat 11 || c = Char.ofNat 12 || c = Char.ofNat 160 || c = Char.ofNat 65279

/-- Drop leading whitespace characters. -/
def trimLeftL (l : List Char) : List Char := l.dropWhile isJsWs

/-- Drop trailing whitespace characters. -/
def trimRightL : List Char → List Char
  | [] => []
  | c :: rest =>
    let r := trimRightL rest
    if r.isEmpty then (if isJsWs c then [] else [c]) else c :: r

/-- JS String.trim on a character list. -/
def jsTrimL (l : List Char) : List Char := trimRightL (trimLeftL l)

/-- JS String.trim. -/
def jsTrim (s : String) : String := String.mk (jsTrimL s.data)

/-- One pass of the global regex replacement of whitespace runs by a single
    space; the flag records whether the previous character was whitespace
    (so only the first character of a run emits a space). -/
def collapseAux : Bool → List Char → List Char
  | _, [] => []
  | prevWs, c :: rest =>
    if isJsWs c then
      (if prevWs then collapseAux true rest else ' ' :: collapseAux true rest)
    else c :: collapseAux false rest

/-- JS replace of every whitespace run by a single space (the regex used at
    enhanced-scraper.js:137). -/
def collapseWsL (l : List Char) : List Char := collapseAux false l

/-- String form of the whitespace-run collapse. -/
def collapseWs (s : String) : String := String.mk (collapseWsL s.data)

/-- True when the list neither starts nor ends with whitespace. -/
def noEdgeWsL (l : List Char) : Bool :=
  (match l.head? with | none => true | some c => !isJsWs c) &&
  (match l.getLast? with | none => true | some c => !isJsWs c)

/-- True when no two consecutive characters are both whitespace. -/
def noWsRunL : List Char → Bool
  | c1 :: c2 :: rest => (!(isJsWs c1 && isJsWs c2)) && noWsRunL (c2 :: rest)
  | _ => true

/-- String wrapper for noEdgeWsL. -/
def noEdgeWs (s : String) : Bool := noEdgeWsL s.data

/-- String wrapper for noWsRunL. -/
def noWsRun (s : String) : Bool := noWsRunL s.data

/-- Whether sub occurs as a leading segment of l (helper for substring
    containment). -/
def leadSeg : List Char → List Char → Bool
  | [], _ => true
  | _ :: _, [] => false
  | a :: as, b :: bs => a = b && leadSeg as bs

/-- Whether sub occurs contiguously anywhere inside l. -/
def hasSeg (sub : List Char) : List Char → Bool
  | [] => sub.isEmpty
  | b :: bs => leadSeg sub (b :: bs) || hasSeg sub bs

/-- JS String.includes. -/
def strIncludes (sub s : String) : Bool := hasSeg sub.data s.data

/-- JS String.toLowerCase (ASCII approximation, as supplied by Char.toLower). -/
def lowerS (s : String) : String := String.mk (s.data.map Char.toLower)

/- ===================== extractWithFallbackSelectors ===================== -/

/-- Model of a cheerio query interface: a selector string evaluated against
    the current scope yields the list of matching elements, in document
    order.  Elements are kept abstract (any type). -/
def SelectorFind (α : Type) := String → List α

/-- The for-loop of extractWithFallbackSelectors (enhanced-scraper.js:103-108):
    for each selector take result = find(selector).first() and return it when
    it is nonempty. -/
def fallbackLoop {α : Type} (find : SelectorFind α) : List String → Option (List α)
  | [] => none
  | s :: rest =>
    let result := (find s).take 1
    if result.length > 0 then some result else fallbackLoop find rest

/-- enhanced-scraper.js:100-111.  Walks the selector list, returning the
    first matching element of the first selector that matches at least one
    element; when every selector misses it returns the (empty) result of
    the first selector again. -/
def extractWithFallbackSelectors {α : Type} (find : SelectorFind α)
    (selectors : List String) : List α :=
  match fallbackLoop find selectors with
  | some r => r
  | none =>
    match selectors with
    | [] => []
    | s0 :: _ => find s0

/- ===================== Configuration and sports list ===================== -/

/-- enhanced-scraper.js:13-21 (outputDir is a filesystem path and is not
    modelled). -/
structure Config where
  baseUrl : String
  requestDelay : Nat
  maxRetries : Nat
  retryDelay : Nat
  userAgent : String
  timeoutMs : Nat
deriving DecidableEq

/-- The compiled-in CONFIG constant. -/
def CONFIG : Config :=
  { baseUrl := "https://clasico.com.do/juegos-nacionales-salesianos-2025/"
    requestDelay := 1500
    maxRetries := 3
    retryDelay := 2000
    userAgent := "Mozilla/5.0 (Windows NT 10.0; Win64; x64) AppleWebKit/537.36 (KHTML, like Gecko) Chrome/120.0.0.0 Safari/537.36"
    timeoutMs := 30000 }

/-- enhanced-scraper.js:24-33 sport descriptor. -/
structure Sport where
  name : String
  urlPath : String
deriving DecidableEq

/-- The SPORTS list. -/
def SPORTS : List Sport :=
  [⟨"Fútbol", "futbol"⟩, ⟨"Atletismo", "atletismo"⟩, ⟨"Baloncesto", "baloncesto"⟩,
   ⟨"Ajedrez", "ajedrez"⟩, ⟨"Voleibol", "voleibol"⟩, ⟨"Tenis de Mesa", "tenis-de-mesa"⟩,
   ⟨"Béisbol", "beisbol"⟩, ⟨"Fútbol Sala", "futbol-sala"⟩]

/- ===================== fetchWithRetry ===================== -/

/-- enhanced-scraper.js:49-60.  The network is modelled as a map from the
    attempt number to that attempt's outcome.  Alongside the final outcome
    the list of sleeps performed between attempts is returned (each retry
    sleeps CONFIG.retryDelay milliseconds before re-issuing the request). -/
def fetchWithRetry (net : Nat → Except String String) :
    Nat → Nat → Except String String × List Nat
  | retries, attempt =>
    match net attempt with
    | Except.ok r => (Except.ok r, [])
    | Except.error e =>
      if retries = 0 then (Except.error e, [])
      else
        let rest := fetchWithRetry net (retries - 1) (attempt + 1)
        (rest.1, CONFIG.retryDelay :: rest.2)

/-- Number of HTTP attempts a fetchWithRetry run performs: one more than the
    number of inter-attempt sleeps. -/
def attemptsUsed (net : Nat → Except String String) (retries attempt : Nat) : Nat :=
  (fetchWithRetry net retries attempt).2.length + 1

/- ===================== Text extraction ===================== -/

/-- The text-extraction step applied throughout both scrapers: the matched
    element's text content followed by JS trim, e.g.
    enhanced-scraper.js:256 (sport title) and :136 (announcement title). -/
def extractText (raw : String) : String := jsTrim raw

/-- The announcement-content extraction (enhanced-scraper.js:137): text
    content, trim, then replace every whitespace run by a single space. -/
def extractCollapsed (raw : String) : String := collapseWs (jsTrim raw)

/- ===================== Sport-page record builders ===================== -/

/-- JSON-like value stored in a match record: a string field or the teams
    array (enhanced-scraper.js:316-326). -/
inductive JVal where
  | str (v : String)
  | arr (vs : List String)
deriving DecidableEq

/-- Falsiness test used by the empty-property cleanup
    (enhanced-scraper.js:329-333): an empty string or an empty array. -/
def jvalEmpty : JVal → Bool
  | .str v => v == ""
  | .arr vs => vs.isEmpty

/-- The already-trimmed texts a match element yields for each selector of
    enhanced-scraper.js:315-326.  catSel is the text of the category child
    selector, catContainer the heading of the closest category container
    (used when catSel is empty). -/
structure MatchInput where
  title : String
  teams : List String
  score : String
  winner : String
  date : String
  time : String
  location : String
  catSel : String
  catContainer : String
deriving DecidableEq

/-- The match object literal of enhanced-scraper.js:316-326, as an ordered
    key/value list (JS object insertion order). -/
def mkMatch (m : MatchInput) : List (String × JVal) :=
  [("title", JVal.str m.title), ("teams", JVal.arr m.teams),
   ("score", JVal.str m.score), ("winner", JVal.str m.winner),
   ("date", JVal.str m.date), ("time", JVal.str m.time),
   ("location", JVal.str m.location),
   ("category", JVal.str (if m.catSel ≠ "" then m.catSel else m.catContainer))]

/-- The per-match cleanup loop (enhanced-scraper.js:329-333): delete every
    key whose value is falsy or an empty array. -/
def cleanRecord (r : List (String × JVal)) : List (String × JVal) :=
  r.filter (fun kv => !jvalEmpty kv.2)

/-- enhanced-scraper.js:315-338: build each match, clean it, and keep it only
    when more than one property remains. -/
def extractMatches (ms : List MatchInput) : List (List (String × JVal)) :=
  ms.filterMap (fun m =>
    let r0 := cleanRecord (mkMatch m)
    if r0.length > 1 then some r0 else none)

/-- The trimmed texts for one sport-page news element
    (enhanced-scraper.js:411-418). -/
structure NewsInput where
  title : String
  date : String
  content : String
  author : String
  imageUrl : String
deriving DecidableEq

/-- The newsItem object literal of enhanced-scraper.js:412-418 as an ordered
    key/value list. -/
def mkNewsRecord (n : NewsInput) : List (String × String) :=
  [("title", n.title), ("date", n.date), ("content", n.content),
   ("author", n.author), ("imageUrl", n.imageUrl)]

/-- The per-news cleanup loop (enhanced-scraper.js:421-425). -/
def cleanStrRecord (r : List (String × String)) : List (String × String) :=
  r.filter (fun kv => kv.2 != "")

/-- enhanced-scraper.js:411-430: clean each news item and keep it when title
    or content is non-empty. -/
def extractSportNews (ns : List NewsInput) : List (List (String × String)) :=
  ns.filterMap (fun n =>
    let r0 := cleanStrRecord (mkNewsRecord n)
    if n.title ≠ "" ∨ n.content ≠ "" then some r0 else none)

/-- One standings-table team row (enhanced-scraper.js:354-363); all seven
    keys are always present in the JS object. -/
structure TeamRec where
  position : String
  name : String
  played : String
  won : String
  drawn : String
  lost : String
  points : String
deriving DecidableEq

/-- Text of the k-th td cell of a row (empty selection text when the cell is
    absent), matching td:nth-child(k+1). -/
def cellAt (cells : List String) (i : Nat) : String := cells.getD i ""

/-- The team object literal of enhanced-scraper.js:354-363 built from a
    row's trimmed cell texts. -/
def mkTeam (cells : List String) : TeamRec :=
  { position := cellAt cells 0
    name := cellAt cells 1
    played := cellAt cells 2
    won := cellAt cells 3
    drawn := cellAt cells 4
    lost := cellAt cells 5
    points := if cellAt cells 6 ≠ "" then cellAt cells 6 else (cells.getLast?.getD "") }

/-- enhanced-scraper.js:351-369: skip the header row (j = 0), build a team
    from each remaining row and keep it when name and position are both
    non-empty.  No empty-key cleanup is applied to team rows. -/
def extractTeams (rows : List (List String)) : List TeamRec :=
  (rows.drop 1).filterMap (fun cells =>
    let t := mkTeam cells
    if t.name ≠ "" ∧ t.position ≠ "" then some t else none)

/-- The key/value pairs a TeamRec serializes to (JSON.stringify keeps every
    key, including those holding empty strings). -/
def teamPairs (t : TeamRec) : List (String × String) :=
  [("position", t.position), ("name", t.name), ("played", t.played),
   ("won", t.won), ("drawn", t.drawn), ("lost", t.lost), ("points", t.points)]

/-- One medal item as pairs of (class-based selector text, td-cell fallback
    text) for the four fields of enhanced-scraper.js:387-396. -/
structure MedalInput where
  posMain : String
  posCell : String
  nameMain : String
  nameCell : String
  schoolMain : String
  schoolCell : String
  resultMain : String
  resultCell : String
deriving DecidableEq

/-- A built medal item (all four keys always present). -/
structure MedalRec where
  position : String
  name : String
  school : String
  result : String
deriving DecidableEq

/-- The medalItem object literal of enhanced-scraper.js:387-396. -/
def mkMedalItem (m : MedalInput) : MedalRec :=
  { position := if m.posMain ≠ "" then m.posMain else m.posCell
    name := if m.nameMain ≠ "" then m.nameMain else m.nameCell
    school := if m.schoolMain ≠ "" then m.schoolMain else m.schoolCell
    result := if m.resultMain ≠ "" then m.resultMain else m.resultCell }

/-- enhanced-scraper.js:386-402: keep a medal item only when name and
    position are both non-empty. -/
def extractMedalItems (ms : List MedalInput) : List MedalRec :=
  ms.filterMap (fun m =>
    let it := mkMedalItem m
    if it.name ≠ "" ∧ it.position ≠ "" then some it else none)

/- ===================== Results-table title recovery ===================== -/

/-- enhanced-scraper.js:268-280, for the i-th results table.  prevHeading is
    the trimmed text of the preceding h2/h3/h4 sibling, caption the trimmed
    text of a nested caption element, prevCategory the trimmed text of a
    preceding .category/.group/.division sibling, containerHeading the
    trimmed heading text of the closest category/group container. -/
def tableTitleEnhanced (prevHeading caption prevCategory containerHeading : String)
    (i : Nat) : String :=
  let tableTitle :=
    if prevHeading ≠ "" then prevHeading
    else if caption ≠ "" then caption
    else "Resultados " ++ toString (i + 1)
  let category := if prevCategory ≠ "" then prevCategory else containerHeading
  if category ≠ "" ∧ strIncludes category tableTitle = false then
    category ++ " - " ++ tableTitle
  else tableTitle

/-- web-scraper.js:109 (minimal variant): preceding heading text, else the
    synthesized default label. -/
def tableTitleBasic (prevHeading : String) (i : Nat) : String :=
  if prevHeading ≠ "" then prevHeading else "Table " ++ toString (i + 1)

/-- Modelled from the spec: the title recovery order claimed in section 4.2
    (preceding heading sibling, then nested caption, then containing category
    block's heading, then a synthesized default label), first non-empty
    candidate wins.  Stated for comparison against the code's computation. -/
def specTableTitle (prevHeading caption categoryHeading : String) (i : Nat) : String :=
  if prevHeading ≠ "" then prevHeading
  else if caption ≠ "" then caption
  else if categoryHeading ≠ "" then categoryHeading
  else "Table " ++ toString (i + 1)

/- ===================== Sport page aggregation and summary ===================== -/

/-- A rich results-table cell (enhanced-scraper.js:286-297). -/
inductive RichCell where
  | winner (text : String)
  | withImage (text imgSrc : String)
  | plain (text : String)
deriving DecidableEq

/-- One extracted results table (enhanced-scraper.js:305-310). -/
structure ResultTable where
  title : String
  data : List (List RichCell)
deriving DecidableEq

/-- One standings block (enhanced-scraper.js:343-349). -/
structure StandingBlock where
  title : String
  category : String
  teams : List TeamRec
deriving DecidableEq

/-- One medal block (enhanced-scraper.js:379-384). -/
structure MedalBlock where
  title : String
  items : List MedalRec
deriving DecidableEq

/-- One gallery image (enhanced-scraper.js:439-443). -/
structure GalleryImg where
  url : String
  title : String
  caption : String
deriving DecidableEq

/-- The sportInfo object (enhanced-scraper.js:253-264 on success,
    :471-475 on failure); optional keys are absent when none. -/
structure SportInfo where
  name : String
  url : String
  title : Option String
  description : Option String
  heroImage : Option String
  error : Option String
deriving DecidableEq

/-- The sportData aggregate before the empty-bucket cleanup
    (enhanced-scraper.js:447-455). -/
structure RawSportData where
  sportInfo : SportInfo
  results : List ResultTable
  matchItems : List (List (String × JVal))  -- JS key: matches (a reserved word in Lean)
  standings : List StandingBlock
  medals : List MedalBlock
  news : List (List (String × String))
  gallery : List GalleryImg
deriving DecidableEq

/-- The persisted sportData: buckets deleted when empty
    (enhanced-scraper.js:457-462), so a bucket is either absent or a
    non-empty list. -/
structure SportData where
  sportInfo : SportInfo
  results : Option (List ResultTable)
  matchItems : Option (List (List (String × JVal)))  -- JS key: matches
  standings : Option (List StandingBlock)
  medals : Option (List MedalBlock)
  news : Option (List (List (String × String)))
  gallery : Option (List GalleryImg)
deriving DecidableEq

/-- Delete-if-empty for one bucket. -/
def someIfNonempty {α : Type} (l : List α) : Option (List α) :=
  if l.isEmpty then none else some l

/-- The empty-bucket cleanup loop of enhanced-scraper.js:457-462. -/
def dropEmptyBuckets (r : RawSportData) : SportData :=
  ⟨r.sportInfo, someIfNonempty r.results, someIfNonempty r.matchItems,
   someIfNonempty r.standings, someIfNonempty r.medals,
   someIfNonempty r.news, someIfNonempty r.gallery⟩

/-- The per-sport URL (enhanced-scraper.js:241). -/
def sportPageUrl (sport : Sport) : String := CONFIG.baseUrl ++ sport.urlPath ++ "/"

/-- The catch-block placeholder of enhanced-scraper.js:468-477: only name,
    url and error inside sportInfo, and no buckets at all. -/
def placeholderSportData (sport : Sport) (e : String) : SportData :=
  ⟨⟨sport.name, sportPageUrl sport, none, none, none, some e⟩,
   none, none, none, none, none, none⟩

/-- enhanced-scraper.js:240-478.  The try-body's parsing of the fetched HTML
    is abstracted as the parse argument; a failed fetch lands in the catch
    block and produces the placeholder. -/
def scrapeSportPage (parse : Sport → String → RawSportData)
    (fetch : String → Except String String) (sport : Sport) : SportData :=
  match fetch (sportPageUrl sport) with
  | Except.ok html => dropEmptyBuckets (parse sport html)
  | Except.error e => placeholderSportData sport e

/-- One row of summary.json's sports array (enhanced-scraper.js:526-536). -/
structure SummaryEntry where
  name : String
  resultsCount : Nat
  matchesCount : Nat
  hasStandings : Bool
  hasMedals : Bool
  error : Option String
deriving DecidableEq

/-- JS optional-chain length with || 0: 0 when the bucket key was deleted. -/
def optLen {α : Type} (o : Option (List α)) : Nat :=
  match o with
  | none => 0
  | some l => l.length

/-- The per-sport summary row (enhanced-scraper.js:528-535). -/
def summaryEntryFor (nm : String) (sd : SportData) : SummaryEntry :=
  ⟨nm, optLen sd.results, optLen sd.matchItems,
   optLen sd.standings != 0, optLen sd.medals != 0, sd.sportInfo.error⟩

/-- The sports array of summary.json produced by runScraper
    (enhanced-scraper.js:499-537): every sport in SPORTS is scraped in
    order and summarized, regardless of individual failures. -/
def runScraperSummary (parse : Sport → String → RawSportData)
    (fetch : String → Except String String) : List SummaryEntry :=
  SPORTS.map (fun s => summaryEntryFor s.name (scrapeSportPage parse fetch s))

/- ===================== CSV renderer (data-processor) ===================== -/

/-- Whether a cell value must be wrapped in quotes
    (web-scraper.js bundle, formatCSVValue:289). -/
def needsQuote (l : List Char) : Bool :=
  l.contains ',' || l.contains '"' || l.contains '\n'

/-- Double every embedded double quote (the replace of formatCSVValue:291). -/
def doubleQ : List Char → List Char
  | [] => []
  | c :: rest => if c = '"' then '"' :: '"' :: doubleQ rest else c :: doubleQ rest

/-- formatCSVValue on one string cell: quote and double embedded quotes when
    the value holds a comma, a quote or a newline. -/
def encodeCSVCell (l : List Char) : List Char :=
  if needsQuote l then '"' :: (doubleQ l ++ ['"']) else l

/-- formatCSVValue (formatCSVValue:277-295); a missing (null/undefined)
    value encodes as the empty string.  Object values (JSON.stringify) are
    outside this model: cells are strings. -/
def formatCSVValue : Option String → String
  | none => ""
  | some s => String.mk (encodeCSVCell s.data)

/-- Un-double doubled quotes (used by a standard CSV reader on the inside of
    a quoted cell). -/
def undouble : List Char → List Char
  | [] => []
  | [c] => [c]
  | c1 :: c2 :: rest =>
    if c1 = '"' ∧ c2 = '"' then '"' :: undouble rest
    else c1 :: undouble (c2 :: rest)

/-- A standard CSV reader's treatment of one already-isolated cell: a cell
    wrapped in double quotes is unwrapped and its doubled quotes collapsed;
    any other cell is taken verbatim. -/
def csvDecodeList : List Char → List Char
  | [] => []
  | c :: rest =>
    if c = '"' then
      match rest.getLast? with
      | some q => if q = '"' then undouble rest.dropLast else c :: rest
      | none => [c]
    else c :: rest

/-- String wrapper for csvDecodeList. -/
def csvDecodeCell (s : String) : String := String.mk (csvDecodeList s.data)

/-- A row handed to convertToCSV / convertToHTMLTable: either an array of
    cells or an object (ordered key/value list); a cell may be absent
    (null/undefined). -/
inductive Row where
  | arr (cells : List (Option String))
  | obj (kvs : List (String × Option String))
deriving DecidableEq

/-- One object row rendered against a header list
    (convertToCSV:269: headers.map(key => formatCSVValue(row[key]))). -/
def csvRowLine (headers : List String) (kvs : List (String × Option String)) : String :=
  String.intercalate "," (headers.map (fun k => formatCSVValue ((kvs.lookup k).getD none))) ++ "\n"

/-- The forEach body of convertToCSV:257-271, threading the csv text and the
    (possibly still unset) header list.  Note that on the first object row
    with unset headers the code overwrites csv with the new header line. -/
def csvStep (st : String × Option (List String)) (row : Row) :
    String × Option (List String) :=
  match row with
  | Row.arr cells =>
    (st.1 ++ String.intercalate "," (cells.map formatCSVValue) ++ "\n", st.2)
  | Row.obj kvs =>
    match st.2 with
    | none =>
      let hs := kvs.map Prod.fst
      (String.intercalate "," hs ++ "\n" ++ csvRowLine hs kvs, some hs)
    | some hs => (st.1 ++ csvRowLine hs kvs, some hs)

/-- convertToCSV (convertToCSV:248-274). -/
def convertToCSV (rows : List Row) (headers : Option (List String)) : String :=
  if rows.isEmpty then ""
  else
    (rows.foldl csvStep
      (match headers with
       | some hs => (String.intercalate "," hs ++ "\n", some hs)
       | none => ("", none))).1

/- ===================== HTML renderer (data-processor) ===================== -/

/-- Replace every occurrence of the character c by the replacement list r
    (one chained String.replace of formatHTMLValue). -/
def replaceCh (c : Char) (r : List Char) : List Char → List Char
  | [] => []
  | a :: rest =>
    if a = c then r ++ replaceCh c r rest else a :: replaceCh c r rest

/-- formatHTMLValue (formatHTMLValue:347-362): escape the five HTML special
    characters, ampersand first; null/undefined renders as empty. -/
def formatHTMLValue : Option String → String
  | none => ""
  | some s =>
    String.mk (replaceCh '\'' "&#039;".data
      (replaceCh '"' "&quot;".data
        (replaceCh '>' "&gt;".data
          (replaceCh '<' "&lt;".data
            (replaceCh '&' "&amp;".data s.data)))))

/-- The td cells of one body row of convertToHTMLTable:324-340.  For an
    object row without headers the JS code would throw; that case is
    rendered empty here and is unreachable from the call sites. -/
def htmlCellsOfRow (headers : Option (List String)) (row : Row) : String :=
  match row with
  | Row.arr cells =>
    String.join (cells.map (fun c => "<td>" ++ formatHTMLValue c ++ "</td>"))
  | Row.obj kvs =>
    match headers with
    | some hs =>
      String.join (hs.map (fun k =>
        "<td>" ++ formatHTMLValue ((kvs.lookup k).getD none) ++ "</td>"))
    | none => ""

/-- convertToHTMLTable (convertToHTMLTable:298-344), reproducing the template
    literal's whitespace. -/
def convertToHTMLTable (data : List Row) (title : String)
    (headers0 : Option (List String)) : String :=
  if data.isEmpty then "<p>No data available for " ++ title ++ "</p>"
  else
    let headers :=
      match headers0 with
      | some hs => some hs
      | none =>
        match data.head? with
        | some (Row.obj kvs) => some (kvs.map Prod.fst)
        | _ => none
    let html0 := "\n    <div class=\"table-container\">\n      <h3>" ++ title ++
      "</h3>\n      <table border=\"1\" cellpadding=\"5\" cellspacing=\"0\">\n  "
    let html1 := html0 ++
      (match headers with
       | some hs =>
         "<thead><tr>" ++ String.join (hs.map (fun h => "<th>" ++ h ++ "</th>")) ++
         "</tr></thead>"
       | none => "")
    let html2 := html1 ++ "<tbody>" ++
      String.join (data.map (fun row => "<tr>" ++ htmlCellsOfRow headers row ++ "</tr>"))
    html2 ++ "</tbody></table></div>"

/- ===================== Navigation links ===================== -/

/-- One anchor element found by the navigation selector
    (enhanced-scraper.js:180): its raw text, its optional href attribute and
    the two active-class checks. -/
structure NavElem where
  rawText : String
  href : Option String
  hasActiveClass : Bool
  parentHasActiveClass : Bool
deriving DecidableEq

/-- The link object literal (enhanced-scraper.js:181-189). -/
structure NavLink where
  text : String
  url : String
  isActive : Bool
  isSport : Bool
deriving DecidableEq

/-- The isSport test (enhanced-scraper.js:185-188). -/
def navIsSport (rawText : String) (url : String) : Bool :=
  SPORTS.any (fun sport =>
    strIncludes (lowerS sport.name) (lowerS (jsTrim rawText)) ||
    strIncludes sport.urlPath url)

/-- Build the link record for one anchor element. -/
def mkNavLink (e : NavElem) : NavLink :=
  let url := e.href.getD ""
  ⟨jsTrim e.rawText, url, e.hasActiveClass || e.parentHasActiveClass,
   navIsSport e.rawText url⟩

/-- The push-guard of enhanced-scraper.js:191-193: append only when text and
    url are non-empty and no already-collected link has the same url. -/
def navStep (acc : List NavLink) (e : NavElem) : List NavLink :=
  let link := mkNavLink e
  if link.text ≠ "" ∧ link.url ≠ "" ∧ (acc.any (fun l => l.url == link.url)) = false
  then acc ++ [link] else acc

/-- enhanced-scraper.js:179-194: the navigationLinks collection (the minimal
    variant at web-scraper.js:66-75 is the same loop without the isActive and
    isSport fields). -/
def collectNavLinks (elems : List NavElem) : List NavLink :=
  elems.foldl navStep []

/- ===================== Helper lemmas ===================== -/

/-- Selectors that match nothing are skipped by the fallback loop. -/
theorem fallbackLoop_skip {α : Type} (find : SelectorFind α) (pre rest : List String)
    (hpre : ∀ t ∈ pre, find t = []) :
    fallbackLoop find (pre ++ rest) = fallbackLoop find rest := by
  induction pre with
  | nil => rfl
  | cons t pre ih =>
    have ht : find t = [] := hpre t (by simp)
    simp only [List.cons_append, fallbackLoop, ht, List.take_nil, List.length_nil,
      gt_iff_lt, Nat.lt_irrefl, if_false]
    exact ih (fun u hu => hpre u (by simp [hu]))

/-- The first selector with a non-empty result stops the fallback loop with
    that result's first element. -/
theorem fallbackLoop_hit {α : Type} (find : SelectorFind α) (s : String) (rest : List String)
    (hs : find s ≠ []) :
    fallbackLoop find (s :: rest) = some ((find s).take 1) := by
  have hlen : ((find s).take 1).length > 0 := by
    cases h : find s with
    | nil => exact absurd h hs
    | cons a t => simp [h]
  simp only [fallbackLoop, hlen, if_true]

/-- The head of dropWhile never satisfies the dropped predicate. -/
theorem head_dropWhile_not (p : Char → Bool) (l : List Char) :
    ∀ c, (l.dropWhile p).head? = some c → p c = false := by
  induction l with
  | nil => intro c h; simp [List.dropWhile] at h
  | cons a t ih =>
    intro c h
    cases hp : p a with
    | true => rw [List.dropWhile_cons_of_pos (by simp [hp])] at h; exact ih c h
    | false =>
      rw [List.dropWhile_cons_of_neg (by simp [hp])] at h
      simp at h
      rw [← h]
      exact hp

/-- The last character surviving trimRightL is not whitespace. -/
theorem trimRightL_getLast (l : List Char) :
    ∀ c, (trimRightL l).getLast? = some c → isJsWs c = false := by
  induction l with
  | nil => intro c h; simp [trimRightL] at h
  | cons a t ih =>
    intro c h
    simp only [trimRightL] at h
    by_cases he : (trimRightL t).isEmpty = true
    · rw [if_pos he] at h
      by_cases hw : isJsWs a = true
      · rw [if_pos hw] at h; simp at h
      · rw [if_neg hw] at h
        simp at h
        rw [← h]
        simpa using hw
    · rw [if_neg he] at h
      have hne : trimRightL t ≠ [] := by
        intro hnil; rw [hnil] at he; exact he rfl
      cases hr : trimRightL t with
      | nil => exact absurd hr hne
      | cons b rs =>
        rw [hr, List.getLast?_cons_cons] at h
        exact ih c (by rw [hr]; exact h)

/-- trimRightL only removes a suffix, so a surviving head was the head. -/
theorem trimRightL_head (l : List Char) :
    ∀ c, (trimRightL l).head? = some c → l.head? = some c := by
  cases l with
  | nil => intro c h; simp [trimRightL] at h
  | cons a t =>
    intro c h
    simp only [trimRightL] at h
    by_cases he : (trimRightL t).isEmpty = true
    · rw [if_pos he] at h
      by_cases hw : isJsWs a = true
      · rw [if_pos hw] at h; simp at h
      · rw [if_neg hw] at h
        simp at h
        simp [h]
    · rw [if_neg he] at h
      simp at h
      simp [h]

/-- A fully trimmed list has no whitespace at either edge. -/
theorem jsTrimL_noEdge (l : List Char) : noEdgeWsL (jsTrimL l) = true := by
  unfold noEdgeWsL
  rw [Bool.and_eq_true]
  refine ⟨?_, ?_⟩
  · cases hh : (jsTrimL l).head? with
    | none => simp
    | some c =>
      have h1 : (trimLeftL l).head? = some c := trimRightL_head _ c hh
      have h2 : isJsWs c = false := head_dropWhile_not isJsWs l c h1
      simp [h2]
  · cases hg : (jsTrimL l).getLast? with
    | none => simp
    | some c =>
      have h2 : isJsWs c = false := trimRightL_getLast _ c hg
      simp [h2]

/-- After a whitespace character was just consumed, the collapse output never
    starts with whitespace. -/
theorem collapseAux_head_nonWs (l : List Char) :
    ∀ c, (collapseAux true l).head? = some c → isJsWs c = false := by
  induction l with
  | nil => intro c h; simp [collapseAux] at h
  | cons a t ih =>
    intro c h
    by_cases hw : isJsWs a = true
    · rw [collapseAux, if_pos hw, if_pos rfl] at h
      exact ih c h
    · rw [collapseAux, if_neg hw] at h
      simp at h
      rw [← h]
      simpa using hw

/-- The collapse output never contains two consecutive whitespace
    characters. -/
theorem collapseAux_noRun (l : List Char) : ∀ b, noWsRunL (collapseAux b l) = true := by
  induction l with
  | nil => intro b; simp [collapseAux, noWsRunL]
  | cons a t ih =>
    intro b
    by_cases hw : isJsWs a = true
    · cases b with
      | true =>
        rw [collapseAux, if_pos hw, if_pos rfl]
        exact ih true
      | false =>
        rw [collapseAux, if_pos hw, if_neg (by simp)]
        cases hy : collapseAux true t with
        | nil => simp [noWsRunL]
        | cons y ys =>
          have hyw : isJsWs y = false := collapseAux_head_nonWs t y (by rw [hy]; rfl)
          have htail : noWsRunL (y :: ys) = true := by rw [← hy]; exact ih true
          simp [noWsRunL, hyw, htail]
    · rw [collapseAux, if_neg hw]
      cases hy : collapseAux false t with
      | nil => simp [noWsRunL]
      | cons y ys =>
        have htail : noWsRunL (y :: ys) = true := by rw [← hy]; exact ih false
        simp [noWsRunL, htail]
        left
        simpa using hw

/-- A non-whitespace head survives the collapse unchanged. -/
theorem collapseWsL_head (l : List Char) (c : Char)
    (hh : l.head? = some c) (hc : isJsWs c = false) :
    (collapseWsL l).head? = some c := by
  cases l with
  | nil => simp at hh
  | cons a t =>
    simp at hh
    rw [← hh] at hc
    rw [collapseWsL, collapseAux, if_neg (by simp [hc])]
    simp [hh]

/-- A non-whitespace last character survives the collapse unchanged. -/
theorem collapseAux_getLast (l : List Char) :
    ∀ b c, l.getLast? = some c → isJsWs c = false → (collapseAux b l).getLast? = some c := by
  induction l with
  | nil => intro b c h _; simp at h
  | cons a t ih =>
    intro b c h hc
    cases t with
    | nil =>
      simp at h
      rw [← h] at hc
      cases b with
      | true =>
        rw [collapseAux, if_neg (by simp [hc])]
        simp [collapseAux, h]
      | false =>
        rw [collapseAux, if_neg (by simp [hc])]
        simp [collapseAux, h]
    | cons x xs =>
      rw [List.getLast?_cons_cons] at h
      by_cases hw : isJsWs a = true
      · cases b with
        | true =>
          rw [collapseAux, if_pos hw, if_pos rfl]
          exact ih true c h hc
        | false =>
          rw [collapseAux, if_pos hw, if_neg (by simp)]
          have hy := ih true c h hc
          cases hy2 : collapseAux true (x :: xs) with
          | nil => rw [hy2] at hy; simp at hy
          | cons y ys =>
            rw [hy2] at hy
            rw [List.getLast?_cons_cons]
            exact hy
      · rw [collapseAux, if_neg hw]
        have hy := ih false c h hc
        cases hy2 : collapseAux false (x :: xs) with
        | nil => rw [hy2] at hy; simp at hy
        | cons y ys =>
          rw [hy2] at hy
          rw [List.getLast?_cons_cons]
          exact hy

/- ===================== Claim C1 ===================== -/

/-- C1: for a field with selector list pre ++ s :: rest where every selector
    of pre matches nothing and s matches at least one element, the fallback
    extraction returns exactly what it would return for s alone, namely the
    first element matching s.  (The claimed two-selector case is pre = one
    missing selector.) -/
theorem C1_first_matching_selector_wins {α : Type} (find : SelectorFind α)
    (pre : List String) (s : String) (rest : List String)
    (hpre : ∀ t ∈ pre, find t = []) (hs : find s ≠ []) :
    extractWithFallbackSelectors find (pre ++ s :: rest)
      = extractWithFallbackSelectors find [s]
  ∧ extractWithFallbackSelectors find (pre ++ s :: rest) = (find s).take 1 := by
  have hloop : fallbackLoop find (pre ++ s :: rest) = some ((find s).take 1) := by
    rw [fallbackLoop_skip find pre (s :: rest) hpre]
    exact fallbackLoop_hit find s rest hs
  have hsing : fallbackLoop find [s] = some ((find s).take 1) :=
    fallbackLoop_hit find s [] hs
  constructor
  · rw [extractWithFallbackSelectors.eq_def, extractWithFallbackSelectors.eq_def, hloop, hsing]
  · rw [extractWithFallbackSelectors.eq_def, hloop]

/-- Witness for C1 at a concrete selector-to-elements map. -/
theorem C1_first_matching_selector_wins_witness :
    extractWithFallbackSelectors (fun q => if q = "b" then [1] else ([] : List Nat))
        (["a"] ++ "b" :: ["c"])
      = extractWithFallbackSelectors (fun q => if q = "b" then [1] else []) ["b"]
  ∧ extractWithFallbackSelectors (fun q => if q = "b" then [1] else ([] : List Nat))
        (["a"] ++ "b" :: ["c"])
      = ((fun q => if q = "b" then [1] else ([] : List Nat)) "b").take 1 :=
  C1_first_matching_selector_wins (fun q => if q = "b" then [1] else []) ["a"] "b" ["c"]
    (by decide) (by decide)

/- ===================== Claim C2 ===================== -/

/-- C2 counterexample: the general text extraction (text content followed by
    trim, e.g. the sport title at enhanced-scraper.js:256) keeps internal
    whitespace runs, so an element text with a double space inside yields an
    extracted value with a run of two spaces, contradicting the claim that
    every extraction collapses internal whitespace. -/
theorem C2_counterexample :
    extractText "a  b" = "a  b" ∧ noWsRun (extractText "a  b") = false := by
  constructor
  · rfl
  · rfl

/-- C2 amended: every text extraction is trimmed, so it has no leading or
    trailing whitespace; only the announcement-content extraction
    (enhanced-scraper.js:137) additionally collapses internal whitespace
    runs to a single space. -/
theorem C2_amended_trim_and_collapse (s : String) :
    noEdgeWs (extractText s) = true
  ∧ noEdgeWs (extractCollapsed s) = true
  ∧ noWsRun (extractCollapsed s) = true := by
  refine ⟨jsTrimL_noEdge s.data, ?_, collapseAux_noRun (jsTrimL s.data) false⟩
  show noEdgeWsL (collapseWsL (jsTrimL s.data)) = true
  unfold noEdgeWsL
  rw [Bool.and_eq_true]
  refine ⟨?_, ?_⟩
  · cases hx : (jsTrimL s.data).head? with
    | none =>
      have : jsTrimL s.data = [] := by
        cases h : jsTrimL s.data with
        | nil => rfl
        | cons a t => rw [h] at hx; simp at hx
      rw [this]
      simp [collapseWsL, collapseAux]
    | some c =>
      have h1 : (trimLeftL s.data).head? = some c := trimRightL_head _ c hx
      have hc : isJsWs c = false := head_dropWhile_not isJsWs s.data c h1
      rw [collapseWsL_head _ c hx hc]
      simp [hc]
  · cases hx : (jsTrimL s.data).getLast? with
    | none =>
      have hnil : jsTrimL s.data = [] := List.getLast?_eq_none_iff.mp hx
      rw [hnil]
      simp [collapseWsL, collapseAux]
    | some c =>
      have hc : isJsWs c = false := trimRightL_getLast _ c hx
      unfold collapseWsL
      rw [collapseAux_getLast _ false c hx hc]
      simp [hc]

/- ===================== Claim C3 ===================== -/

/-- A bucket survives the empty-bucket deletion only as a non-empty list. -/
theorem someIfNonempty_ne_some_nil {α : Type} (l : List α) :
    someIfNonempty l ≠ some [] := by
  rcases l with _ | ⟨a, t⟩ <;> simp [someIfNonempty]

/-- C3 counterexample: a standings team row carrying only a position and a
    name is kept (enhanced-scraper.js:365-368) with its five statistic keys
    still bound to empty strings, and its persisted key/value form therefore
    maps the key "played" to the empty string.  The empty-key removal pass is
    not applied to standings team records. -/
theorem C3_counterexample :
    extractTeams [["Equipo"], ["1", "TeamA"]]
      = [⟨"1", "TeamA", "", "", "", "", "TeamA"⟩]
  ∧ ("played", "") ∈ teamPairs ⟨"1", "TeamA", "", "", "", "", "TeamA"⟩ := by
  constructor
  · rfl
  · decide

/-- C3 amended: the uniform empty-value stripping exists only for match
    records, sport-page news records and the page-level buckets; those
    outputs indeed never contain an empty-valued key (or an empty bucket).
    Standings teams, medal items, schedule items and main-page news keep
    empty-valued keys. -/
theorem C3_amended_cleanup_scope (ms : List MatchInput) (ns : List NewsInput)
    (r : RawSportData) :
    (∀ m ∈ extractMatches ms, ∀ kv ∈ m, jvalEmpty kv.2 = false)
  ∧ (∀ n ∈ extractSportNews ns, ∀ kv ∈ n, kv.2 ≠ "")
  ∧ (dropEmptyBuckets r).results ≠ some []
  ∧ (dropEmptyBuckets r).matchItems ≠ some []
  ∧ (dropEmptyBuckets r).standings ≠ some []
  ∧ (dropEmptyBuckets r).medals ≠ some []
  ∧ (dropEmptyBuckets r).news ≠ some []
  ∧ (dropEmptyBuckets r).gallery ≠ some [] := by
  refine ⟨?_, ?_, ?_, ?_, ?_, ?_, ?_, ?_⟩
  · intro m hm kv hkv
    simp only [extractMatches, List.mem_filterMap] at hm
    rcases hm with ⟨a, _, ha⟩
    split at ha
    · obtain rfl := Option.some.inj ha
      have := (List.mem_filter.mp hkv).2
      simpa using this
    · exact absurd ha (by simp)
  · intro n hn kv hkv
    simp only [extractSportNews, List.mem_filterMap] at hn
    rcases hn with ⟨a, _, ha⟩
    split at ha
    · obtain rfl := Option.some.inj ha
      have := (List.mem_filter.mp hkv).2
      simpa using this
    · exact absurd ha (by simp)
  · exact someIfNonempty_ne_some_nil _
  · exact someIfNonempty_ne_some_nil _
  · exact someIfNonempty_ne_some_nil _
  · exact someIfNonempty_ne_some_nil _
  · exact someIfNonempty_ne_some_nil _
  · exact someIfNonempty_ne_some_nil _

/-- Witness for the amended C3 at a concrete cleaned match record. -/
theorem C3_amended_cleanup_scope_witness :
    jvalEmpty (("score", JVal.str "2-1") : String × JVal).2 = false
  ∧ (dropEmptyBuckets ⟨⟨"", "", none, none, none, none⟩, [], [], [], [], [], []⟩).results
      ≠ some [] :=
  ⟨(C3_amended_cleanup_scope [⟨"Final", [], "2-1", "", "", "", "", "", ""⟩] []
      ⟨⟨"", "", none, none, none, none⟩, [], [], [], [], [], []⟩).1
      [("title", JVal.str "Final"), ("score", JVal.str "2-1")] (by decide)
      ("score", JVal.str "2-1") (by decide),
   (C3_amended_cleanup_scope [] []
      ⟨⟨"", "", none, none, none, none⟩, [], [], [], [], [], []⟩).2.2.1⟩

/- ===================== Claim C4 ===================== -/

/-- C4 counterexample: a match element whose title is non-empty but whose
    other fields are all empty is discarded (the guard at
    enhanced-scraper.js:335 needs more than one surviving property), although
    the claim says a record with a non-empty identity field is kept. -/
theorem C4_counterexample :
    extractMatches [⟨"Final", [], "", "", "", "", "", "", ""⟩] = []
  ∧ (⟨"Final", [], "", "", "", "", "", "", ""⟩ : MatchInput).title ≠ "" := by
  constructor
  · rfl
  · decide

/-- C4 amended: the acceptance rules actually implemented are: a match is
    kept exactly when at least two of its fields are non-empty; a sport-page
    news item exactly when its title or its content is non-empty; a
    standings team row and a medal item exactly when both name and position
    are non-empty. -/
theorem C4_amended_acceptance (mi : MatchInput) (ni : NewsInput)
    (cells : List String) (md : MedalInput) :
    (extractMatches [mi] ≠ [] ↔ 2 ≤ (mkMatch mi).countP (fun kv => !jvalEmpty kv.2))
  ∧ (extractSportNews [ni] ≠ [] ↔ (ni.title ≠ "" ∨ ni.content ≠ ""))
  ∧ (extractTeams [[], cells] ≠ [] ↔
      ((mkTeam cells).name ≠ "" ∧ (mkTeam cells).position ≠ ""))
  ∧ (extractMedalItems [md] ≠ [] ↔
      ((mkMedalItem md).name ≠ "" ∧ (mkMedalItem md).position ≠ "")) := by
  have hcount : (cleanRecord (mkMatch mi)).length
      = (mkMatch mi).countP (fun kv => !jvalEmpty kv.2) := by
    rw [cleanRecord, List.countP_eq_length_filter]
  refine ⟨?_, ?_, ?_, ?_⟩
  · by_cases h : (cleanRecord (mkMatch mi)).length > 1
    · simp only [extractMatches, List.filterMap_cons, List.filterMap_nil, if_pos h]
      rw [← hcount]
      constructor
      · intro _; omega
      · intro _; simp
    · simp only [extractMatches, List.filterMap_cons, List.filterMap_nil, if_neg h]
      rw [← hcount]
      constructor
      · intro hne; exact absurd rfl hne
      · intro hle; omega
  · by_cases h : ni.title ≠ "" ∨ ni.content ≠ ""
    · simp only [extractSportNews, List.filterMap_cons, List.filterMap_nil, if_pos h]
      simp [h]
    · simp only [extractSportNews, List.filterMap_cons, List.filterMap_nil, if_neg h]
      simp [h]
  · by_cases h : (mkTeam cells).name ≠ "" ∧ (mkTeam cells).position ≠ ""
    · simp only [extractTeams, List.drop_succ_cons, List.drop_zero,
        List.filterMap_cons, List.filterMap_nil, if_pos h]
      simp [h]
    · simp only [extractTeams, List.drop_succ_cons, List.drop_zero,
        List.filterMap_cons, List.filterMap_nil, if_neg h]
      simp [h]
  · by_cases h : (mkMedalItem md).name ≠ "" ∧ (mkMedalItem md).position ≠ ""
    · simp only [extractMedalItems, List.filterMap_cons, List.filterMap_nil, if_pos h]
      simp [h]
    · simp only [extractMedalItems, List.filterMap_cons, List.filterMap_nil, if_neg h]
      simp [h]

/- ===================== Claim C5 ===================== -/

/-- C5: when the fetch of one sport page fails (after its retries are
    exhausted), that sport's page result is the placeholder carrying only
    name, url and error, every sport of SPORTS still gets a summary row in
    order, the failing sport's row is among them, and that row carries
    resultsCount 0, matchesCount 0, no standings, no medals and the error
    message. -/
theorem C5_fetch_failure_placeholder (parse : Sport → String → RawSportData)
    (fetch : String → Except String String) (sport : Sport) (e : String)
    (hmem : sport ∈ SPORTS)
    (hf : fetch (sportPageUrl sport) = Except.error e) :
    scrapeSportPage parse fetch sport = placeholderSportData sport e
  ∧ (runScraperSummary parse fetch).map (fun en => en.name)
      = SPORTS.map (fun s => s.name)
  ∧ summaryEntryFor sport.name (scrapeSportPage parse fetch sport)
      ∈ runScraperSummary parse fetch
  ∧ summaryEntryFor sport.name (placeholderSportData sport e)
      = ⟨sport.name, 0, 0, false, false, some e⟩ := by
  refine ⟨?_, ?_, ?_, ?_⟩
  · rw [scrapeSportPage, hf]
  · simp [runScraperSummary, List.map_map, summaryEntryFor, Function.comp]
  · simp only [runScraperSummary]
    exact List.mem_map_of_mem _ hmem
  · rfl

/-- Witness for C5: the first sport with a network that always fails. -/
theorem C5_fetch_failure_placeholder_witness :
    scrapeSportPage (fun _ _ => ⟨⟨"", "", none, none, none, none⟩, [], [], [], [], [], []⟩)
        (fun _ => Except.error "timeout") ⟨"Fútbol", "futbol"⟩
      = placeholderSportData ⟨"Fútbol", "futbol"⟩ "timeout"
  ∧ (runScraperSummary (fun _ _ => ⟨⟨"", "", none, none, none, none⟩, [], [], [], [], [], []⟩)
        (fun _ => Except.error "timeout")).map (fun en => en.name)
      = SPORTS.map (fun s => s.name)
  ∧ summaryEntryFor (Sport.name ⟨"Fútbol", "futbol"⟩)
        (scrapeSportPage (fun _ _ => ⟨⟨"", "", none, none, none, none⟩, [], [], [], [], [], []⟩)
          (fun _ => Except.error "timeout") ⟨"Fútbol", "futbol"⟩)
      ∈ runScraperSummary (fun _ _ => ⟨⟨"", "", none, none, none, none⟩, [], [], [], [], [], []⟩)
          (fun _ => Except.error "timeout")
  ∧ summaryEntryFor (Sport.name ⟨"Fútbol", "futbol"⟩)
        (placeholderSportData ⟨"Fútbol", "futbol"⟩ "timeout")
      = ⟨Sport.name ⟨"Fútbol", "futbol"⟩, 0, 0, false, false, some "timeout"⟩ :=
  C5_fetch_failure_placeholder
    (fun _ _ => ⟨⟨"", "", none, none, none, none⟩, [], [], [], [], [], []⟩)
    (fun _ => Except.error "timeout") ⟨"Fútbol", "futbol"⟩ "timeout" (by decide) rfl

/- ===================== Claim C6 ===================== -/

/-- The sleep list of a retry run never exceeds the retry budget. -/
theorem fetchWithRetry_len (net : Nat → Except String String) :
    ∀ retries k, (fetchWithRetry net retries k).2.length ≤ retries := by
  intro retries
  induction retries with
  | zero =>
    intro k
    rw [fetchWithRetry]
    cases net k with
    | ok v => simp
    | error e => simp
  | succ n ih =>
    intro k
    rw [fetchWithRetry]
    cases net k with
    | ok v => simp
    | error e =>
      simp only [Nat.succ_ne_zero, if_false, Nat.add_sub_cancel]
      simpa using Nat.succ_le_succ (ih (k + 1))

/-- Every sleep of a retry run lasts exactly CONFIG.retryDelay: the pause is
    fixed, with no backoff growth. -/
theorem fetchWithRetry_delays (net : Nat → Except String String) :
    ∀ retries k, ∀ d ∈ (fetchWithRetry net retries k).2, d = CONFIG.retryDelay := by
  intro retries
  induction retries with
  | zero =>
    intro k d hd
    rw [fetchWithRetry] at hd
    cases hnk : net k with
    | ok v => rw [hnk] at hd; simp at hd
    | error e => rw [hnk] at hd; simp at hd
  | succ n ih =>
    intro k d hd
    rw [fetchWithRetry] at hd
    cases hnk : net k with
    | ok v => rw [hnk] at hd; simp at hd
    | error e =>
      rw [hnk] at hd
      simp only [Nat.succ_ne_zero, if_false, Nat.add_sub_cancel] at hd
      simp at hd
      rcases hd with hd | hd
      · exact hd
      · exact ih (k + 1) d hd

/-- When the first attempt succeeds the run stops immediately. -/
theorem fetchWithRetry_ok (net : Nat → Except String String) (retries k : Nat)
    (v : String) (hok : net k = Except.ok v) :
    fetchWithRetry net retries k = (Except.ok v, []) := by
  rw [fetchWithRetry, hok]

/-- When every attempt in the budget fails, the run performs exactly
    retries + 1 attempts, sleeps the fixed delay between each pair, and
    propagates the last attempt's error. -/
theorem fetchWithRetry_allFail (net : Nat → Except String String) :
    ∀ retries k, (∀ j, j ≤ retries → ∃ e, net (k + j) = Except.error e) →
      fetchWithRetry net retries k
        = (net (k + retries), List.replicate retries CONFIG.retryDelay) := by
  intro retries
  induction retries with
  | zero =>
    intro k h
    obtain ⟨e, he⟩ := h 0 (Nat.le_refl 0)
    simp only [Nat.add_zero] at he ⊢
    rw [fetchWithRetry, he]
    simp
  | succ n ih =>
    intro k h
    obtain ⟨e, he⟩ := h 0 (Nat.zero_le _)
    simp only [Nat.add_zero] at he
    rw [fetchWithRetry, he]
    simp only [Nat.succ_ne_zero, if_false, Nat.add_sub_cancel]
    have ih' := ih (k + 1) (fun j hj => by
      obtain ⟨e2, he2⟩ := h (j + 1) (Nat.succ_le_succ hj)
      refine ⟨e2, ?_⟩
      have hx : k + 1 + j = k + (j + 1) := by omega
      rw [hx]
      exact he2)
    rw [ih']
    have hx : k + 1 + n = k + (n + 1) := by omega
    rw [hx]
    simp [List.replicate_succ]

/-- C6: fetchWithRetry performs sequential attempts separated by the fixed
    CONFIG.retryDelay pause (no backoff growth), performs at most
    retries + 1 HTTP attempts (at most 4 with the default budget
    CONFIG.maxRetries = 3), returns at the first success, and after the
    budget is exhausted it propagates the last attempt's error. -/
theorem C6_retry_contract (net : Nat → Except String String) (retries k : Nat) :
    ((fetchWithRetry net retries k).2.length ≤ retries
      ∧ attemptsUsed net retries k ≤ retries + 1
      ∧ attemptsUsed net CONFIG.maxRetries k ≤ 4
      ∧ ∀ d ∈ (fetchWithRetry net retries k).2, d = CONFIG.retryDelay)
  ∧ (∀ v, net k = Except.ok v → fetchWithRetry net retries k = (Except.ok v, []))
  ∧ ((∀ j, j ≤ retries → ∃ e, net (k + j) = Except.error e) →
       fetchWithRetry net retries k
         = (net (k + retries), List.replicate retries CONFIG.retryDelay)) := by
  refine ⟨⟨fetchWithRetry_len net retries k, ?_, ?_, fetchWithRetry_delays net retries k⟩,
    fun v hv => fetchWithRetry_ok net retries k v hv,
    fetchWithRetry_allFail net retries k⟩
  · have h := fetchWithRetry_len net retries k
    unfold attemptsUsed
    omega
  · have h := fetchWithRetry_len net CONFIG.maxRetries k
    unfold attemptsUsed
    have h3 : CONFIG.maxRetries = 3 := rfl
    omega

/-- Witness for C6: a network that always fails exhausts the default budget
    of 3 retries with 3 fixed-length sleeps and surfaces the error. -/
theorem C6_retry_contract_witness :
    (fetchWithRetry (fun _ => Except.error "boom") 3 0).2.length ≤ 3
  ∧ fetchWithRetry (fun _ => Except.error "boom") 3 0
      = (Except.error "boom", List.replicate 3 CONFIG.retryDelay) := by
  refine ⟨(C6_retry_contract (fun _ => Except.error "boom") 3 0).1.1, ?_⟩
  have h := (C6_retry_contract (fun _ => Except.error "boom") 3 0).2.2
    (fun j _ => ⟨"boom", rfl⟩)
  simpa using h

/- ===================== Claim C7 ===================== -/

/-- Doubling the quotes of a list never yields the empty list unless the
    list was empty. -/
theorem doubleQ_eq_nil (t : List Char) (h : doubleQ t = []) : t = [] := by
  cases t with
  | nil => rfl
  | cons a t2 =>
    rw [doubleQ] at h
    by_cases ha : a = '"'
    · rw [if_pos ha] at h; simp at h
    · rw [if_neg ha] at h; simp at h

/-- Un-doubling inverts quote doubling. -/
theorem undouble_doubleQ (l : List Char) : undouble (doubleQ l) = l := by
  induction l with
  | nil => rfl
  | cons c t ih =>
    by_cases hc : c = '"'
    · subst hc
      rw [doubleQ, if_pos rfl, undouble, if_pos ⟨rfl, rfl⟩, ih]
    · rw [doubleQ, if_neg hc]
      cases hdq : doubleQ t with
      | nil =>
        have ht : t = [] := doubleQ_eq_nil t hdq
        subst ht
        rfl
      | cons d ds =>
        rw [undouble, if_neg (fun h => hc h.1), ← hdq, ih]

/-- Decoding an encoded CSV cell recovers the original value. -/
theorem csvDecode_encode (l : List Char) : csvDecodeList (encodeCSVCell l) = l := by
  by_cases hq : needsQuote l = true
  · rw [encodeCSVCell, if_pos hq, csvDecodeList, if_pos rfl]
    rw [List.getLast?_concat]
    simp only
    rw [if_pos trivial, List.dropLast_concat]
    exact undouble_doubleQ l
  · rw [encodeCSVCell, if_neg hq]
    cases l with
    | nil => rfl
    | cons c rest =>
      have hc : c ≠ '"' := by
        intro h
        subst h
        apply hq
        simp [needsQuote]
      rw [csvDecodeList, if_neg hc]

/-- A cell starts with a quote exactly when the source value needed
    quoting. -/
theorem encode_head_iff (l : List Char) :
    (encodeCSVCell l).head? = some '"' ↔ needsQuote l = true := by
  by_cases hq : needsQuote l = true
  · rw [encodeCSVCell, if_pos hq]
    simp [hq]
  · rw [encodeCSVCell, if_neg hq]
    simp only [hq, Bool.false_eq_true, iff_false]
    intro hh
    apply hq
    cases l with
    | nil => simp at hh
    | cons c rest =>
      simp at hh
      subst hh
      simp [needsQuote]

/-- C7: formatCSVValue quotes a cell exactly when it holds a comma, quote or
    newline (doubling embedded quotes, as on the claimed example), a
    standard CSV reader recovers the original value from the encoded cell,
    and when no header list is supplied convertToCSV uses the first object
    row's keys as headers. -/
theorem C7_csv_roundtrip (v : String) (kvs : List (String × Option String))
    (rest : List Row) :
    csvDecodeCell (formatCSVValue (some v)) = v
  ∧ ((formatCSVValue (some v)).data.head? = some '"' ↔ needsQuote v.data = true)
  ∧ formatCSVValue (some "He said, \"hi\"") = "\"He said, \"\"hi\"\"\""
  ∧ convertToCSV (Row.obj kvs :: rest) none
      = convertToCSV (Row.obj kvs :: rest) (some (kvs.map Prod.fst)) := by
  refine ⟨?_, encode_head_iff v.data, by decide, ?_⟩
  · show String.mk (csvDecodeList (encodeCSVCell v.data)) = v
    rw [csvDecode_encode]
  · rw [convertToCSV, convertToCSV]
    simp only [List.isEmpty_cons, Bool.false_eq_true, if_false]
    rw [List.foldl_cons, List.foldl_cons]
    rfl

/- ===================== Claim C8 ===================== -/

/-- Characters absent from both the input and the replacement stay absent
    after a replacement pass. -/
theorem mem_replaceCh_pres (x c : Char) (r l : List Char)
    (hxr : x ∉ r) (hxl : x ∉ l) : x ∉ replaceCh c r l := by
  induction l with
  | nil => simp [replaceCh]
  | cons a t ih =>
    have hxt : x ∉ t := fun h => hxl (List.mem_cons_of_mem _ h)
    have hxa : x ≠ a := fun h => hxl (by rw [h]; exact List.mem_cons_self _ _)
    by_cases ha : a = c
    · rw [replaceCh, if_pos ha]
      intro hmem
      rcases List.mem_append.mp hmem with h | h
      · exact hxr h
      · exact ih hxt h
    · rw [replaceCh, if_neg ha]
      intro hmem
      rcases List.mem_cons.mp hmem with h | h
      · exact hxa h
      · exact ih hxt h

/-- The replaced character is gone after its replacement pass, provided the
    replacement text does not reintroduce it. -/
theorem mem_replaceCh_elim (c : Char) (r l : List Char) (hcr : c ∉ r) :
    c ∉ replaceCh c r l := by
  induction l with
  | nil => simp [replaceCh]
  | cons a t ih =>
    by_cases ha : a = c
    · rw [replaceCh, if_pos ha]
      intro hmem
      rcases List.mem_append.mp hmem with h | h
      · exact hcr h
      · exact ih h
    · rw [replaceCh, if_neg ha]
      intro hmem
      rcases List.mem_cons.mp hmem with h | h
      · exact ha h.symm
      · exact ih h

/-- C8: formatHTMLValue leaves no raw markup character in its output (no
    angle brackets and no quote of either kind survives escaping), the
    claimed example escapes as stated, and the rendered table holds the cell
    as literal entity text. -/
theorem C8_html_escape (v : Option String) :
    '<' ∉ (formatHTMLValue v).data
  ∧ '>' ∉ (formatHTMLValue v).data
  ∧ '"' ∉ (formatHTMLValue v).data
  ∧ '\'' ∉ (formatHTMLValue v).data
  ∧ formatHTMLValue (some "<b>x</b>") = "&lt;b&gt;x&lt;/b&gt;"
  ∧ convertToHTMLTable [Row.arr [some "<b>x</b>"]] "T" none
      = "\n    <div class=\"table-container\">\n      <h3>T</h3>\n      <table border=\"1\" cellpadding=\"5\" cellspacing=\"0\">\n  <tbody><tr><td>&lt;b&gt;x&lt;/b&gt;</td></tr></tbody></table></div>" := by
  cases v with
  | none =>
    refine ⟨?_, ?_, ?_, ?_, by decide, by decide⟩ <;> simp [formatHTMLValue]
  | some s =>
    have hlt : '<' ∉ replaceCh '<' "&lt;".data (replaceCh '&' "&amp;".data s.data) :=
      mem_replaceCh_elim _ _ _ (by decide)
    have hlt2 : '<' ∉ replaceCh '>' "&gt;".data
        (replaceCh '<' "&lt;".data (replaceCh '&' "&amp;".data s.data)) :=
      mem_replaceCh_pres _ _ _ _ (by decide) hlt
    have hlt3 : '<' ∉ replaceCh '"' "&quot;".data (replaceCh '>' "&gt;".data
        (replaceCh '<' "&lt;".data (replaceCh '&' "&amp;".data s.data))) :=
      mem_replaceCh_pres _ _ _ _ (by decide) hlt2
    have hlt4 : '<' ∉ replaceCh '\'' "&#039;".data (replaceCh '"' "&quot;".data
        (replaceCh '>' "&gt;".data
          (replaceCh '<' "&lt;".data (replaceCh '&' "&amp;".data s.data)))) :=
      mem_replaceCh_pres _ _ _ _ (by decide) hlt3
    have hgt : '>' ∉ replaceCh '>' "&gt;".data
        (replaceCh '<' "&lt;".data (replaceCh '&' "&amp;".data s.data)) :=
      mem_replaceCh_elim _ _ _ (by decide)
    have hgt2 : '>' ∉ replaceCh '"' "&quot;".data (replaceCh '>' "&gt;".data
        (replaceCh '<' "&lt;".data (replaceCh '&' "&amp;".data s.data))) :=
      mem_replaceCh_pres _ _ _ _ (by decide) hgt
    have hgt3 : '>' ∉ replaceCh '\'' "&#039;".data (replaceCh '"' "&quot;".data
        (replaceCh '>' "&gt;".data
          (replaceCh '<' "&lt;".data (replaceCh '&' "&amp;".data s.data)))) :=
      mem_replaceCh_pres _ _ _ _ (by decide) hgt2
    have hqu : '"' ∉ replaceCh '"' "&quot;".data (replaceCh '>' "&gt;".data
        (replaceCh '<' "&lt;".data (replaceCh '&' "&amp;".data s.data))) :=
      mem_replaceCh_elim _ _ _ (by decide)
    have hqu2 : '"' ∉ replaceCh '\'' "&#039;".data (replaceCh '"' "&quot;".data
        (replaceCh '>' "&gt;".data
          (replaceCh '<' "&lt;".data (replaceCh '&' "&amp;".data s.data)))) :=
      mem_replaceCh_pres _ _ _ _ (by decide) hqu
    have hap : '\'' ∉ replaceCh '\'' "&#039;".data (replaceCh '"' "&quot;".data
        (replaceCh '>' "&gt;".data
          (replaceCh '<' "&lt;".data (replaceCh '&' "&amp;".data s.data)))) :=
      mem_replaceCh_elim _ _ _ (by decide)
    exact ⟨hlt4, hgt3, hqu2, hap, by decide, by decide⟩

/- ===================== Claim C9 ===================== -/

/-- C9 counterexample: with no preceding heading and no caption but a
    non-empty category-container heading, the code synthesizes the default
    label and prefixes the category (giving "Cat - Resultados 1"), while the
    claimed fallback order would make the category heading itself the title
    ("Cat").  The claimed default label "Table N" is also only the minimal
    variant's; the enhanced scraper uses "Resultados N". -/
theorem C9_counterexample :
    tableTitleEnhanced "" "" "" "Cat" 0 = "Cat - Resultados 1"
  ∧ specTableTitle "" "" "Cat" 0 = "Cat"
  ∧ tableTitleEnhanced "" "" "" "Cat" 0 ≠ specTableTitle "" "" "Cat" 0 := by
  refine ⟨by decide, by decide, by decide⟩

/-- C9 amended: the title is the first non-empty of preceding heading,
    nested caption, and the synthesized default "Resultados N"; the category
    (preceding category element, else the containing block's heading) never
    becomes the title alone — when non-empty and not already contained in
    the title it is prefixed as "category - title". -/
theorem C9_amended_title_order (ph c pc ch : String) (i : Nat) :
    (pc = "" → ch = "" → ph ≠ "" → tableTitleEnhanced ph c pc ch i = ph)
  ∧ (pc = "" → ch = "" → ph = "" → c ≠ "" → tableTitleEnhanced ph c pc ch i = c)
  ∧ (pc = "" → ch = "" → ph = "" → c = "" →
      tableTitleEnhanced ph c pc ch i = "Resultados " ++ toString (i + 1))
  ∧ (ph = "" → c = "" → pc ≠ "" →
      strIncludes pc ("Resultados " ++ toString (i + 1)) = false →
      tableTitleEnhanced ph c pc ch i = pc ++ " - " ++ ("Resultados " ++ toString (i + 1)))
  ∧ (ph = "" → c = "" → pc = "" → ch ≠ "" →
      strIncludes ch ("Resultados " ++ toString (i + 1)) = false →
      tableTitleEnhanced ph c pc ch i = ch ++ " - " ++ ("Resultados " ++ toString (i + 1)))
  ∧ (ph ≠ "" → pc ≠ "" → strIncludes pc ph = false →
      tableTitleEnhanced ph c pc ch i = pc ++ " - " ++ ph) := by
  refine ⟨?_, ?_, ?_, ?_, ?_, ?_⟩
  · intro h1 h2 h3
    subst h1; subst h2
    simp [tableTitleEnhanced, h3]
  · intro h1 h2 h3 h4
    subst h1; subst h2; subst h3
    simp [tableTitleEnhanced, h4]
  · intro h1 h2 h3 h4
    subst h1; subst h2; subst h3; subst h4
    simp [tableTitleEnhanced]
  · intro h1 h2 h3 h4
    subst h1; subst h2
    simp [tableTitleEnhanced, h3, h4]
  · intro h1 h2 h3 h4 h5
    subst h1; subst h2; subst h3
    simp [tableTitleEnhanced, h4, h5]
  · intro h1 h2 h3
    simp [tableTitleEnhanced, h1, h2, h3]

/-- Witness for the amended C9 at concrete headings. -/
theorem C9_amended_title_order_witness :
    tableTitleEnhanced "H" "" "" "" 0 = "H"
  ∧ tableTitleEnhanced "" "Cap" "" "" 0 = "Cap"
  ∧ tableTitleEnhanced "" "" "" "" 0 = "Resultados " ++ toString (0 + 1)
  ∧ tableTitleEnhanced "" "" "Cat" "" 0
      = "Cat" ++ " - " ++ ("Resultados " ++ toString (0 + 1))
  ∧ tableTitleEnhanced "" "" "" "Blk" 0
      = "Blk" ++ " - " ++ ("Resultados " ++ toString (0 + 1))
  ∧ tableTitleEnhanced "H" "" "Cat" "" 0 = "Cat" ++ " - " ++ "H" :=
  ⟨(C9_amended_title_order "H" "" "" "" 0).1 rfl rfl (by decide),
   (C9_amended_title_order "" "Cap" "" "" 0).2.1 rfl rfl rfl (by decide),
   (C9_amended_title_order "" "" "" "" 0).2.2.1 rfl rfl rfl rfl,
   (C9_amended_title_order "" "" "Cat" "" 0).2.2.2.1 rfl rfl (by decide) (by decide),
   (C9_amended_title_order "" "" "" "Blk" 0).2.2.2.2.1 rfl rfl rfl (by decide) (by decide),
   (C9_amended_title_order "H" "" "Cat" "" 0).2.2.2.2.2 (by decide) (by decide) (by decide)⟩

/- ===================== Claim C10 ===================== -/

/-- The fold of the navigation loop preserves url-uniqueness and
    non-emptiness of text and url. -/
theorem navFold_invariant (elems : List NavElem) :
    ∀ acc : List NavLink,
      ((acc.map (fun l => l.url)).Nodup ∧ ∀ l ∈ acc, l.text ≠ "" ∧ l.url ≠ "") →
      ((elems.foldl navStep acc).map (fun l => l.url)).Nodup
      ∧ ∀ l ∈ elems.foldl navStep acc, l.text ≠ "" ∧ l.url ≠ "" := by
  induction elems with
  | nil => intro acc h; exact h
  | cons e es ih =>
    intro acc h
    rw [List.foldl_cons]
    apply ih
    rw [navStep]
    split
    · next hcond =>
      obtain ⟨ht, hu, hany⟩ := hcond
      constructor
      · rw [List.map_append, List.nodup_append]
        refine ⟨h.1, by simp, ?_⟩
        intro x hx hy
        simp at hy
        rcases List.mem_map.mp hx with ⟨l, hl, hlx⟩
        have hne := List.any_eq_false.mp hany l hl
        simp at hne
        exact hne (hlx.trans hy)
      · intro l hl
        rcases List.mem_append.mp hl with hla | hlb
        · exact h.2 l hla
        · simp at hlb
          rw [hlb]
          exact ⟨ht, hu⟩
    · exact h

/-- C10: the collected navigationLinks never contain two entries with the
    same url, and every collected entry has non-empty text and url. -/
theorem C10_nav_links_unique (elems : List NavElem) :
    ((collectNavLinks elems).map (fun l => l.url)).Nodup
  ∧ ∀ l ∈ collectNavLinks elems, l.text ≠ "" ∧ l.url ≠ "" :=
  navFold_invariant elems [] ⟨by simp, by simp⟩

/-- Witness for C10: two anchors sharing an href collapse into one link,
    and an anchor with an empty href is dropped. -/
theorem C10_nav_links_unique_witness :
    ((collectNavLinks
        [⟨"Inicio", some "/", false, false⟩,
         ⟨"Home", some "/", false, false⟩,
         ⟨"Vacío", none, false, false⟩]).map (fun l => l.url)).Nodup
  ∧ (mkNavLink ⟨"Inicio", some "/", false, false⟩).text ≠ ""
  ∧ (mkNavLink ⟨"Inicio", some "/", false, false⟩).url ≠ "" :=
  ⟨(C10_nav_links_unique
      [⟨"Inicio", some "/", false, false⟩,
       ⟨"Home", some "/", false, false⟩,
       ⟨"Vacío", none, false, false⟩]).1,
   (C10_nav_links_unique
      [⟨"Inicio", some "/", false, false⟩,
       ⟨"Home", some "/", false, false⟩,
       ⟨"Vacío", none, false, false⟩]).2
     (mkNavLink ⟨"Inicio", some "/", false, false⟩) (by decide)⟩

end JNS2025
